import Mathlib

/-!
Verification of pyprophet's pandas/polars compatibility shim
(pyprophet/util/compat.py) via a shallow embedding.

Modelling conventions:
* A DataFrame's in-memory data is a `Table`: an ordered list of named
  columns, each a list of cells.
* A runtime Python value relevant to the shim is a `Value`: a pandas
  DataFrame, a polars DataFrame, or a non-DataFrame value such as a plain
  string or integer.  DataFrame constructors carry a `Nat` reference tag
  modelling Python object identity, so that identity passthrough (the
  function returns the very same object) is distinguishable from mere data
  equality.  Functions that may allocate a fresh DataFrame thread an
  allocation counter `c : Nat`; an unchanged counter means no new object
  was created.
* Python `TypeError` is modelled as `Except.error` carrying the message
  string built exactly as the source builds it; the type display of the
  offending value is `pyTypeName`.
* Keyword-argument dictionaries are `PyDict`, association lists with
  CPython dict semantics: unique keys, insertion order preserved,
  assignment to an existing key updates it in place, `pop` removes it,
  `update` assigns all entries of the other dict in order.
* The CSV readers and writers of the underlying libraries perform file
  I/O, which has no observable value-level content here; the embedding of
  `compatible_read_csv` / `compatible_write_csv` therefore returns a
  description of the library call made (`ReadCall` / `WriteCall`) with the
  exact argument dictionary passed, instead of performing the write.
-/

/-- Cell of a table column: the scalar payloads that occur in the shim's
data model. -/
inductive Cell where
  | int (n : Int)
  | str (s : String)
  | bool (b : Bool)
deriving DecidableEq

/-- Columnar table data: ordered named columns with their cell lists. -/
structure Table where
  cols : List (String × List Cell)
deriving DecidableEq

/-- Column names of a table, in order. -/
def Table.columnNames (t : Table) : List String :=
  t.cols.map Prod.fst

/-- Row count of a table (length of the first column; columns of a
DataFrame are uniform in length). -/
def Table.rowCount (t : Table) : Nat :=
  match t.cols with
  | [] => 0
  | c :: _ => c.2.length

/-- Runtime Python value as seen by the shim: a pandas DataFrame, a polars
DataFrame (each with an object-identity tag `ref` and its table data), or
a non-DataFrame value such as a string or an integer. -/
inductive Value where
  | pandas (ref : Nat) (t : Table)
  | polars (ref : Nat) (t : Table)
  | pyStr (s : String)
  | pyInt (n : Int)
deriving DecidableEq

/-- Table data carried by a value, when it is a DataFrame of either
representation. -/
def Value.table? : Value → Option Table
  | Value.pandas _ t => some t
  | Value.polars _ t => some t
  | Value.pyStr _ => none
  | Value.pyInt _ => none

/-- Display of the Python type of a value, as interpolated by the source
into its TypeError messages. -/
def pyTypeName : Value → String
  | Value.pandas _ _ => "pandas.core.frame.DataFrame"
  | Value.polars _ _ => "polars.dataframe.frame.DataFrame"
  | Value.pyStr _ => "str"
  | Value.pyInt _ => "int"

/-- Values carried in keyword-argument dictionaries. -/
inductive PyVal where
  | str (s : String)
  | bool (b : Bool)
  | int (n : Int)
deriving DecidableEq

/-- Keyword-argument dictionary: association list in insertion order with
unique keys (CPython dict). -/
abbrev PyDict := List (String × PyVal)

/-- Membership test, modelling Python's `k in d`. -/
def dict_contains : PyDict → String → Bool
  | [], _ => false
  | (k1, _) :: rest, k => k1 == k || dict_contains rest k

/-- Lookup, modelling Python's `d[k]` (first — with unique keys the only —
occurrence). -/
def dict_get : PyDict → String → Option PyVal
  | [], _ => none
  | (k1, v) :: rest, k => if k1 = k then some v else dict_get rest k

/-- Assignment `d[k] = v`, modelling CPython: an existing key keeps its
position and gets the new value; a new key is appended at the end. -/
def dict_set : PyDict → String → PyVal → PyDict
  | [], k, v => [(k, v)]
  | (k1, v1) :: rest, k, v =>
      if k1 = k then (k, v) :: rest else (k1, v1) :: dict_set rest k v

/-- Removal `d.pop(k)`, modelling CPython: the entry with key `k` is
removed, the order of the others is preserved. -/
def dict_pop : PyDict → String → PyDict
  | [], _ => []
  | (k1, v1) :: rest, k =>
      if k1 = k then dict_pop rest k else (k1, v1) :: dict_pop rest k

/-- Update `d.update(e)`, modelling CPython: each entry of `e` is assigned
into `d` in `e`'s order. -/
def dict_update (d e : PyDict) : PyDict :=
  e.foldl (fun acc p => dict_set acc p.1 p.2) d

/-- Model of the external library routine `pl.from_pandas`: a full eager
conversion that copies the table data into a freshly allocated polars
DataFrame (fresh reference, counter advanced). -/
def pl_from_pandas (t : Table) (c : Nat) : Value × Nat :=
  (Value.polars c t, c + 1)

/-- Model of the external polars method `DataFrame.to_pandas`: a full
eager conversion that copies the table data into a freshly allocated
pandas DataFrame (fresh reference, counter advanced). -/
def polars_df_to_pandas (t : Table) (c : Nat) : Value × Nat :=
  (Value.pandas c t, c + 1)

/-- Embedding of `to_polars`: pandas input is converted via
`pl.from_pandas`, polars input is returned unchanged, anything else raises
TypeError.  `c` is the allocation counter. -/
def to_polars (df : Value) (c : Nat) : Except String (Value × Nat) :=
  match df with
  | Value.pandas _ t => Except.ok (pl_from_pandas t c)
  | Value.polars r t => Except.ok (Value.polars r t, c)
  | _ => Except.error ("Expected pd.DataFrame or pl.DataFrame, got " ++ pyTypeName df)

/-- Embedding of `to_pandas`: polars input is converted via its
`to_pandas` method, pandas input is returned unchanged, anything else
raises TypeError. -/
def to_pandas (df : Value) (c : Nat) : Except String (Value × Nat) :=
  match df with
  | Value.polars _ t => Except.ok (polars_df_to_pandas t c)
  | Value.pandas r t => Except.ok (Value.pandas r t, c)
  | _ => Except.error ("Expected pd.DataFrame or pl.DataFrame, got " ++ pyTypeName df)

/-- Embedding of `ensure_polars`: alias of `to_polars`. -/
def ensure_polars (df : Value) (c : Nat) : Except String (Value × Nat) :=
  to_polars df c

/-- Embedding of `ensure_pandas`: alias of `to_pandas`. -/
def ensure_pandas (df : Value) (c : Nat) : Except String (Value × Nat) :=
  to_pandas df c

/-- Library call made by `compatible_read_csv`: which reader was invoked,
on which path, with which options. -/
inductive ReadCall where
  | plRead (filepath : String) (opts : PyDict)
  | pdRead (filepath : String) (opts : PyDict)
deriving DecidableEq

/-- Whether the invoked reader was the polars one. -/
def ReadCall.usesPolars : ReadCall → Bool
  | ReadCall.plRead _ _ => true
  | ReadCall.pdRead _ _ => false

/-- Path argument of the invoked reader. -/
def ReadCall.path : ReadCall → String
  | ReadCall.plRead p _ => p
  | ReadCall.pdRead p _ => p

/-- Options dictionary passed to the invoked reader. -/
def ReadCall.opts : ReadCall → PyDict
  | ReadCall.plRead _ o => o
  | ReadCall.pdRead _ o => o

/-- Embedding of `compatible_read_csv`: dispatch on `use_polars`, kwargs
forwarded as they are. -/
def compatible_read_csv (filepath : String) (use_polars : Bool) (kwargs : PyDict) : ReadCall :=
  if use_polars then ReadCall.plRead filepath kwargs
  else ReadCall.pdRead filepath kwargs

/-- Library call made by `compatible_write_csv`: which writer was invoked,
on which path, with which options. -/
inductive WriteCall where
  | plWrite (filepath : String) (opts : PyDict)
  | pdWrite (filepath : String) (opts : PyDict)
deriving DecidableEq

/-- Embedding of `compatible_write_csv`.  For a polars DataFrame the
kwargs are translated: a `sep` entry becomes `separator` in a fresh
`polars_kwargs` dict and is popped, an `index` entry is popped, then
`polars_kwargs.update(kwargs)` merges the rest; the polars writer receives
the merged dict.  For a pandas DataFrame the kwargs go to the pandas
writer untouched.  Anything else raises TypeError. -/
def compatible_write_csv (df : Value) (filepath : String) (kwargs : PyDict) :
    Except String WriteCall :=
  match df with
  | Value.polars _ _ =>
      let step1 :=
        if dict_contains kwargs "sep" then
          (dict_set [] "separator" ((dict_get kwargs "sep").getD (PyVal.str "")),
           dict_pop kwargs "sep")
        else (([] : PyDict), kwargs)
      let kwargs2 :=
        if dict_contains step1.2 "index" then dict_pop step1.2 "index" else step1.2
      Except.ok (WriteCall.plWrite filepath (dict_update step1.1 kwargs2))
  | Value.pandas _ _ => Except.ok (WriteCall.pdWrite filepath kwargs)
  | _ => Except.error ("Expected pd.DataFrame or pl.DataFrame, got " ++ pyTypeName df)

/-- Heap of dictionary objects; a dictionary reference is an index into
the heap.  Used to state the frame property of `compatible_write_csv`:
Python's double-star kwargs passing builds a fresh dict in the callee, so
mutating pops inside the function never touch the caller's dict object. -/
abbrev Store := List PyDict

/-- Dereference a dictionary object. -/
def store_read (s : Store) (r : Nat) : PyDict :=
  s.getD r []

/-- Overwrite the dictionary object at reference `r`. -/
def store_write (s : Store) (r : Nat) (d : PyDict) : Store :=
  s.set r d

/-- Embedding of a call `compatible_write_csv(df, filepath, **d)` where
`d` is the caller's dict object at reference `callerRef` in the heap
`s0`.  The double-star unpacking at the call boundary allocates a fresh
kwargs dict holding the caller's entries; the function body then performs
its pops by mutating that fresh dict in the heap, exactly mirroring the
source's statements.  Returns the final heap together with the library
call made. -/
def compatible_write_csv_call (s0 : Store) (df : Value) (filepath : String)
    (callerRef : Nat) : Store × Except String WriteCall :=
  let kref := s0.length
  let s1 := s0 ++ [store_read s0 callerRef]
  match df with
  | Value.polars _ _ =>
      let kw0 := store_read s1 kref
      let step1 :=
        if dict_contains kw0 "sep" then
          (dict_set [] "separator" ((dict_get kw0 "sep").getD (PyVal.str "")),
           store_write s1 kref (dict_pop kw0 "sep"))
        else (([] : PyDict), s1)
      let kw1 := store_read step1.2 kref
      let s2 :=
        if dict_contains kw1 "index" then store_write step1.2 kref (dict_pop kw1 "index")
        else step1.2
      (s2, Except.ok (WriteCall.plWrite filepath (dict_update step1.1 (store_read s2 kref))))
  | Value.pandas _ _ => (s1, Except.ok (WriteCall.pdWrite filepath (store_read s1 kref)))
  | _ => (s1, Except.error ("Expected pd.DataFrame or pl.DataFrame, got " ++ pyTypeName df))

/-! Lemmas about the CPython dictionary operations. -/

theorem dict_contains_iff_get (d : PyDict) (k : String) :
    dict_contains d k = true ↔ ∃ v, dict_get d k = some v := by
  induction d with
  | nil => simp [dict_contains, dict_get]
  | cons p rest ih =>
      obtain ⟨k1, v1⟩ := p
      by_cases h : k1 = k
      · subst h
        simp [dict_contains, dict_get]
      · simp [dict_contains, dict_get, h, ih]

theorem dict_get_eq_none_of_not_contains (d : PyDict) (k : String)
    (h : dict_contains d k = false) : dict_get d k = none := by
  induction d with
  | nil => rfl
  | cons p rest ih =>
      obtain ⟨k1, v1⟩ := p
      simp [dict_contains] at h
      simp [dict_get, h.1, ih h.2]

theorem dict_contains_iff_mem_keys (d : PyDict) (k : String) :
    dict_contains d k = true ↔ k ∈ d.map Prod.fst := by
  induction d with
  | nil => simp [dict_contains]
  | cons p rest ih =>
      obtain ⟨k1, v1⟩ := p
      simp [dict_contains, ih, @eq_comm String k1 k]

theorem dict_get_set_self (d : PyDict) (k : String) (v : PyVal) :
    dict_get (dict_set d k v) k = some v := by
  induction d with
  | nil => simp [dict_set, dict_get]
  | cons p rest ih =>
      obtain ⟨k1, v1⟩ := p
      by_cases h : k1 = k
      · subst h
        simp [dict_set, dict_get]
      · simp [dict_set, h, dict_get, ih]

theorem dict_get_set_ne (d : PyDict) (k k2 : String) (v : PyVal) (h : k ≠ k2) :
    dict_get (dict_set d k v) k2 = dict_get d k2 := by
  induction d with
  | nil => simp [dict_set, dict_get, h]
  | cons p rest ih =>
      obtain ⟨k1, v1⟩ := p
      by_cases h1 : k1 = k
      · subst h1
        simp [dict_set, dict_get, h]
      · simp [dict_set, dict_get, h1, ih]

theorem dict_contains_set (d : PyDict) (k k2 : String) (v : PyVal) :
    dict_contains (dict_set d k v) k2 = (dict_contains d k2 || (k == k2)) := by
  induction d with
  | nil => simp [dict_set, dict_contains]
  | cons p rest ih =>
      obtain ⟨k1, v1⟩ := p
      by_cases h1 : k1 = k
      · subst h1
        by_cases h2 : k1 = k2 <;> simp [dict_set, dict_contains, h2]
      · simp [dict_set, dict_contains, h1, ih, Bool.or_assoc]

theorem dict_update_cons (d : PyDict) (k : String) (v : PyVal) (e : PyDict) :
    dict_update d ((k, v) :: e) = dict_update (dict_set d k v) e := rfl

theorem dict_get_update_of_not_contains (d e : PyDict) (k : String)
    (h : dict_contains e k = false) :
    dict_get (dict_update d e) k = dict_get d k := by
  induction e generalizing d with
  | nil => rfl
  | cons p rest ih =>
      obtain ⟨k1, v1⟩ := p
      simp [dict_contains] at h
      rw [dict_update_cons, ih _ h.2, dict_get_set_ne _ _ _ _ h.1]

theorem dict_get_update_of_mem (d e : PyDict) (k : String) (v : PyVal)
    (hnd : (e.map Prod.fst).Nodup) (h : dict_get e k = some v) :
    dict_get (dict_update d e) k = some v := by
  induction e generalizing d with
  | nil => simp [dict_get] at h
  | cons p rest ih =>
      obtain ⟨k1, v1⟩ := p
      rw [dict_update_cons]
      simp only [List.map_cons, List.nodup_cons] at hnd
      by_cases h1 : k1 = k
      · subst h1
        have hv : v1 = v := by simpa [dict_get] using h
        have hnc : dict_contains rest k1 = false := by
          by_contra hc
          exact hnd.1 ((dict_contains_iff_mem_keys rest k1).mp (by simpa using hc))
        rw [dict_get_update_of_not_contains _ _ _ hnc, dict_get_set_self, hv]
      · have h2 : dict_get rest k = some v := by simpa [dict_get, h1] using h
        exact ih _ hnd.2 h2

theorem dict_contains_update (d e : PyDict) (k : String) :
    dict_contains (dict_update d e) k = (dict_contains d k || dict_contains e k) := by
  induction e generalizing d with
  | nil => simp [dict_update, dict_contains]
  | cons p rest ih =>
      obtain ⟨k1, v1⟩ := p
      rw [dict_update_cons, ih, dict_contains_set]
      simp [dict_contains, Bool.or_assoc]

theorem dict_contains_pop_self (d : PyDict) (k : String) :
    dict_contains (dict_pop d k) k = false := by
  induction d with
  | nil => rfl
  | cons p rest ih =>
      obtain ⟨k1, v1⟩ := p
      by_cases h : k1 = k
      · simp [dict_pop, h, ih]
      · simp [dict_pop, dict_contains, h, ih]

theorem dict_contains_pop_ne (d : PyDict) (k k2 : String) (h : k ≠ k2) :
    dict_contains (dict_pop d k) k2 = dict_contains d k2 := by
  induction d with
  | nil => rfl
  | cons p rest ih =>
      obtain ⟨k1, v1⟩ := p
      by_cases h1 : k1 = k
      · subst h1
        simp [dict_pop, dict_contains, ih, h]
      · simp [dict_pop, dict_contains, h1, ih]

theorem dict_get_pop_ne (d : PyDict) (k k2 : String) (h : k ≠ k2) :
    dict_get (dict_pop d k) k2 = dict_get d k2 := by
  induction d with
  | nil => rfl
  | cons p rest ih =>
      obtain ⟨k1, v1⟩ := p
      by_cases h1 : k1 = k
      · subst h1
        simp [dict_pop, dict_get, ih, h]
      · simp [dict_pop, dict_get, h1, ih]

theorem dict_pop_keys_sublist (d : PyDict) (k : String) :
    ((dict_pop d k).map Prod.fst).Sublist (d.map Prod.fst) := by
  induction d with
  | nil => simp [dict_pop]
  | cons p rest ih =>
      obtain ⟨k1, v1⟩ := p
      by_cases h : k1 = k
      · simpa [dict_pop, h] using ih.trans (List.sublist_cons_self k1 _)
      · simpa [dict_pop, h] using ih.cons₂ k1

theorem dict_pop_nodup (d : PyDict) (k : String)
    (hnd : (d.map Prod.fst).Nodup) : ((dict_pop d k).map Prod.fst).Nodup :=
  hnd.sublist (dict_pop_keys_sublist d k)

/-! Lemmas about the dictionary heap. -/

theorem store_read_append_lt (s : Store) (d : PyDict) (r : Nat) (h : r < s.length) :
    store_read (s ++ [d]) r = store_read s r := by
  simp [store_read, List.getD, List.getElem?_append, h]

theorem store_read_write_ne (s : Store) (i r : Nat) (d : PyDict) (h : i ≠ r) :
    store_read (store_write s i d) r = store_read s r := by
  simp [store_read, store_write, List.getD, List.getElem?_set_ne h]

/-! Theorems about the embedded shim. -/

/-- C2: a value already in the requested representation is returned
itself: `to_pandas` on a pandas DataFrame yields the very same object
(same reference tag `r`) and allocates nothing (counter `c` unchanged),
and symmetrically `to_polars` on a polars DataFrame. -/
theorem conversion_identity_passthrough (r : Nat) (t : Table) (c : Nat) :
    to_pandas (Value.pandas r t) c = Except.ok (Value.pandas r t, c) ∧
    to_polars (Value.polars r t) c = Except.ok (Value.polars r t, c) :=
  ⟨rfl, rfl⟩

/-- C3: on any input that is neither a pandas nor a polars DataFrame,
`to_polars`, `to_pandas` and `compatible_write_csv` all raise the
TypeError whose message names the observed type, instead of returning a
value. -/
theorem unsupported_type_errors (v : Value) (c : Nat) (path : String) (kwargs : PyDict)
    (h : Value.table? v = none) :
    to_polars v c =
      Except.error ("Expected pd.DataFrame or pl.DataFrame, got " ++ pyTypeName v) ∧
    to_pandas v c =
      Except.error ("Expected pd.DataFrame or pl.DataFrame, got " ++ pyTypeName v) ∧
    compatible_write_csv v path kwargs =
      Except.error ("Expected pd.DataFrame or pl.DataFrame, got " ++ pyTypeName v) := by
  cases v with
  | pandas r t => simp [Value.table?] at h
  | polars r t => simp [Value.table?] at h
  | pyStr s => exact ⟨rfl, rfl, rfl⟩
  | pyInt n => exact ⟨rfl, rfl, rfl⟩

theorem unsupported_type_errors_witness :
    to_polars (Value.pyStr "abc") 0 =
      Except.error
        ("Expected pd.DataFrame or pl.DataFrame, got " ++ pyTypeName (Value.pyStr "abc")) ∧
    to_pandas (Value.pyStr "abc") 0 =
      Except.error
        ("Expected pd.DataFrame or pl.DataFrame, got " ++ pyTypeName (Value.pyStr "abc")) ∧
    compatible_write_csv (Value.pyStr "abc") "out.csv" [] =
      Except.error
        ("Expected pd.DataFrame or pl.DataFrame, got " ++ pyTypeName (Value.pyStr "abc")) :=
  unsupported_type_errors (Value.pyStr "abc") 0 "out.csv" [] rfl

/-- C4: `ensure_polars` agrees with `to_polars` and `ensure_pandas` with
`to_pandas` on every input: same result on success and the same error with
the same message on failure. -/
theorem ensure_aliases_agree (v : Value) (c : Nat) :
    ensure_polars v c = to_polars v c ∧ ensure_pandas v c = to_pandas v c :=
  ⟨rfl, rfl⟩

/-- C5: `compatible_read_csv` dispatches solely on the `use_polars` flag
and forwards the path and the options dictionary verbatim to the selected
reader. -/
theorem read_csv_dispatch_verbatim (p : String) (b : Bool) (k : PyDict) :
    ReadCall.usesPolars (compatible_read_csv p b k) = b ∧
    ReadCall.path (compatible_read_csv p b k) = p ∧
    ReadCall.opts (compatible_read_csv p b k) = k := by
  cases b <;> exact ⟨rfl, rfl, rfl⟩

/-- C6: `compatible_write_csv` on a pandas DataFrame invokes the pandas
writer with the caller's options dictionary verbatim. -/
theorem write_csv_pandas_verbatim (r : Nat) (t : Table) (path : String) (kwargs : PyDict) :
    compatible_write_csv (Value.pandas r t) path kwargs =
      Except.ok (WriteCall.pdWrite path kwargs) :=
  rfl

/-- C7: converting a DataFrame of either representation to the other and
back succeeds and yields a value with the same table data. -/
theorem conversion_roundtrip (v : Value) (c : Nat) (h : (Value.table? v).isSome = true) :
    (∃ w c1 u c2, to_pandas v c = Except.ok (w, c1) ∧ to_polars w c1 = Except.ok (u, c2) ∧
        Value.table? u = Value.table? v) ∧
    (∃ w c1 u c2, to_polars v c = Except.ok (w, c1) ∧ to_pandas w c1 = Except.ok (u, c2) ∧
        Value.table? u = Value.table? v) := by
  cases v with
  | pandas r t =>
      exact ⟨⟨Value.pandas r t, c, Value.polars c t, c + 1, rfl, rfl, rfl⟩,
             ⟨Value.polars c t, c + 1, Value.pandas (c + 1) t, c + 2, rfl, rfl, rfl⟩⟩
  | polars r t =>
      exact ⟨⟨Value.pandas c t, c + 1, Value.polars (c + 1) t, c + 2, rfl, rfl, rfl⟩,
             ⟨Value.polars r t, c, Value.pandas c t, c + 1, rfl, rfl, rfl⟩⟩
  | pyStr s => simp [Value.table?] at h
  | pyInt n => simp [Value.table?] at h

theorem conversion_roundtrip_witness :
    (∃ w c1 u c2, to_pandas (Value.pandas 0 (Table.mk [])) 0 = Except.ok (w, c1) ∧
        to_polars w c1 = Except.ok (u, c2) ∧
        Value.table? u = Value.table? (Value.pandas 0 (Table.mk []))) ∧
    (∃ w c1 u c2, to_polars (Value.pandas 0 (Table.mk [])) 0 = Except.ok (w, c1) ∧
        to_pandas w c1 = Except.ok (u, c2) ∧
        Value.table? u = Value.table? (Value.pandas 0 (Table.mk []))) :=
  conversion_roundtrip (Value.pandas 0 (Table.mk [])) 0 rfl

/-- C8: `to_pandas` on a polars DataFrame yields a pandas DataFrame whose
table has the same column names in the same order, the same row count,
and the same data. -/
theorem to_pandas_preserves_table (r : Nat) (t : Table) (c : Nat) :
    ∃ t2, to_pandas (Value.polars r t) c = Except.ok (Value.pandas c t2, c + 1) ∧
      Table.columnNames t2 = Table.columnNames t ∧
      Table.rowCount t2 = Table.rowCount t ∧
      t2.cols = t.cols :=
  ⟨t, rfl, rfl, rfl, rfl⟩

/-- C10: a call to `compatible_write_csv` never mutates the caller's
options dictionary: the pops of `sep` and `index` act on the fresh kwargs
dict built by double-star unpacking, so the dict object the caller holds
reads back unchanged from the heap after the call. -/
theorem write_csv_caller_dict_unchanged (s : Store) (df : Value) (p : String) (r : Nat)
    (h : r < s.length) :
    store_read (compatible_write_csv_call s df p r).1 r = store_read s r := by
  have hne : s.length ≠ r := ne_of_gt h
  cases df with
  | pandas ref t =>
      simp only [compatible_write_csv_call]
      exact store_read_append_lt _ _ _ h
  | polars ref t =>
      simp only [compatible_write_csv_call]
      split <;> split <;>
        (try rw [store_read_write_ne _ _ _ _ hne]) <;>
        (try rw [store_read_write_ne _ _ _ _ hne]) <;>
        exact store_read_append_lt _ _ _ h
  | pyStr sx =>
      simp only [compatible_write_csv_call]
      exact store_read_append_lt _ _ _ h
  | pyInt n =>
      simp only [compatible_write_csv_call]
      exact store_read_append_lt _ _ _ h

theorem write_csv_caller_dict_unchanged_witness :
    store_read (compatible_write_csv_call [[("sep", PyVal.str ";")]]
        (Value.polars 0 (Table.mk [])) "out.csv" 0).1 0 =
      store_read [[("sep", PyVal.str ";")]] 0 :=
  write_csv_caller_dict_unchanged [[("sep", PyVal.str ";")]] (Value.polars 0 (Table.mk []))
    "out.csv" 0 (by decide)

/-! Equations for the polars branch of `compatible_write_csv`, one per
combination of the two membership tests. -/

theorem write_csv_polars_eq_tt (r : Nat) (t : Table) (path : String) (kwargs : PyDict)
    (hs : dict_contains kwargs "sep" = true)
    (hi : dict_contains (dict_pop kwargs "sep") "index" = true) :
    compatible_write_csv (Value.polars r t) path kwargs =
      Except.ok (WriteCall.plWrite path
        (dict_update (dict_set [] "separator" ((dict_get kwargs "sep").getD (PyVal.str "")))
          (dict_pop (dict_pop kwargs "sep") "index"))) := by
  simp [compatible_write_csv, hs, hi]

theorem write_csv_polars_eq_tf (r : Nat) (t : Table) (path : String) (kwargs : PyDict)
    (hs : dict_contains kwargs "sep" = true)
    (hi : dict_contains (dict_pop kwargs "sep") "index" = false) :
    compatible_write_csv (Value.polars r t) path kwargs =
      Except.ok (WriteCall.plWrite path
        (dict_update (dict_set [] "separator" ((dict_get kwargs "sep").getD (PyVal.str "")))
          (dict_pop kwargs "sep"))) := by
  simp [compatible_write_csv, hs, hi]

theorem write_csv_polars_eq_ft (r : Nat) (t : Table) (path : String) (kwargs : PyDict)
    (hs : dict_contains kwargs "sep" = false)
    (hi : dict_contains kwargs "index" = true) :
    compatible_write_csv (Value.polars r t) path kwargs =
      Except.ok (WriteCall.plWrite path (dict_update [] (dict_pop kwargs "index"))) := by
  simp [compatible_write_csv, hs, hi]

theorem write_csv_polars_eq_ff (r : Nat) (t : Table) (path : String) (kwargs : PyDict)
    (hs : dict_contains kwargs "sep" = false)
    (hi : dict_contains kwargs "index" = false) :
    compatible_write_csv (Value.polars r t) path kwargs =
      Except.ok (WriteCall.plWrite path (dict_update [] kwargs)) := by
  simp [compatible_write_csv, hs, hi]

/-- Shared argument: the merged dict `dict_update init d2` has no `sep`
and no `index` entry and preserves the lookups of every other
caller-supplied key, whenever `init` and `d2` individually avoid those two
keys and `d2` preserves the caller's lookups. -/
theorem update_opts_props (kwargs init d2 : PyDict)
    (hnd2 : (d2.map Prod.fst).Nodup)
    (hisep : dict_contains init "sep" = false)
    (hiidx : dict_contains init "index" = false)
    (h2sep : dict_contains d2 "sep" = false)
    (h2idx : dict_contains d2 "index" = false)
    (hgets : ∀ k, k ≠ "sep" → k ≠ "index" → dict_get d2 k = dict_get kwargs k) :
    dict_contains (dict_update init d2) "sep" = false ∧
    dict_contains (dict_update init d2) "index" = false ∧
    (∀ k, dict_contains kwargs k = true → k ≠ "sep" → k ≠ "index" →
      dict_get (dict_update init d2) k = dict_get kwargs k) := by
  refine ⟨?_, ?_, ?_⟩
  · rw [dict_contains_update, hisep, h2sep]
    rfl
  · rw [dict_contains_update, hiidx, h2idx]
    rfl
  · intro k hk h1 h2
    obtain ⟨w, hw⟩ := (dict_contains_iff_get kwargs k).mp hk
    have h3 : dict_get d2 k = some w := by rw [hgets k h1 h2, hw]
    rw [dict_get_update_of_mem _ _ _ _ hnd2 h3, hw]

/-- C1 (amended): for a polars write, the translated options map never
contains `sep` or `index`, passes every other caller-supplied key through
with its original value, and binds `separator` to the caller's `sep` value
provided the caller did not also supply `separator` (if both are supplied,
the caller's `separator` value prevails by update order). -/
theorem write_csv_polars_option_translation (r : Nat) (t : Table) (path : String)
    (kwargs : PyDict) (hnd : (kwargs.map Prod.fst).Nodup) :
    ∃ opts, compatible_write_csv (Value.polars r t) path kwargs =
        Except.ok (WriteCall.plWrite path opts) ∧
      (dict_contains kwargs "sep" = true → dict_contains kwargs "separator" = false →
        dict_get opts "separator" = dict_get kwargs "sep") ∧
      dict_contains opts "sep" = false ∧
      dict_contains opts "index" = false ∧
      (∀ k, dict_contains kwargs k = true → k ≠ "sep" → k ≠ "index" →
        dict_get opts k = dict_get kwargs k) := by
  by_cases hs : dict_contains kwargs "sep" = true
  · obtain ⟨v0, hv0⟩ := (dict_contains_iff_get kwargs "sep").mp hs
    have hinit_sep :
        dict_contains (dict_set [] "separator" ((dict_get kwargs "sep").getD (PyVal.str "")))
          "sep" = false := by
      simp [dict_set, dict_contains]
    have hinit_idx :
        dict_contains (dict_set [] "separator" ((dict_get kwargs "sep").getD (PyVal.str "")))
          "index" = false := by
      simp [dict_set, dict_contains]
    have hnd1 := dict_pop_nodup kwargs "sep" hnd
    have hsep1 : dict_contains (dict_pop kwargs "sep") "sep" = false :=
      dict_contains_pop_self kwargs "sep"
    by_cases hi : dict_contains (dict_pop kwargs "sep") "index" = true
    · have hnd2 := dict_pop_nodup _ "index" hnd1
      have h2sep : dict_contains (dict_pop (dict_pop kwargs "sep") "index") "sep" = false := by
        rw [dict_contains_pop_ne _ _ _ (by decide)]
        exact hsep1
      have h2idx : dict_contains (dict_pop (dict_pop kwargs "sep") "index") "index" = false :=
        dict_contains_pop_self _ "index"
      have hgets : ∀ k, k ≠ "sep" → k ≠ "index" →
          dict_get (dict_pop (dict_pop kwargs "sep") "index") k = dict_get kwargs k := by
        intro k h1 h2
        rw [dict_get_pop_ne _ _ _ (Ne.symm h2), dict_get_pop_ne _ _ _ (Ne.symm h1)]
      obtain ⟨o1, o2, o3⟩ :=
        update_opts_props kwargs _ _ hnd2 hinit_sep hinit_idx h2sep h2idx hgets
      refine ⟨_, write_csv_polars_eq_tt r t path kwargs hs hi, ?_, o1, o2, o3⟩
      intro _ hns
      have hd2sep : dict_contains (dict_pop (dict_pop kwargs "sep") "index") "separator"
          = false := by
        rw [dict_contains_pop_ne _ _ _ (by decide), dict_contains_pop_ne _ _ _ (by decide)]
        exact hns
      rw [dict_get_update_of_not_contains _ _ _ hd2sep, dict_get_set_self, hv0]
      rfl
    · have hi' : dict_contains (dict_pop kwargs "sep") "index" = false := by simpa using hi
      have hgets : ∀ k, k ≠ "sep" → k ≠ "index" →
          dict_get (dict_pop kwargs "sep") k = dict_get kwargs k := by
        intro k h1 _
        rw [dict_get_pop_ne _ _ _ (Ne.symm h1)]
      obtain ⟨o1, o2, o3⟩ :=
        update_opts_props kwargs _ _ hnd1 hinit_sep hinit_idx hsep1 hi' hgets
      refine ⟨_, write_csv_polars_eq_tf r t path kwargs hs hi', ?_, o1, o2, o3⟩
      intro _ hns
      have hd2sep : dict_contains (dict_pop kwargs "sep") "separator" = false := by
        rw [dict_contains_pop_ne _ _ _ (by decide)]
        exact hns
      rw [dict_get_update_of_not_contains _ _ _ hd2sep, dict_get_set_self, hv0]
      rfl
  · have hs' : dict_contains kwargs "sep" = false := by simpa using hs
    by_cases hi : dict_contains kwargs "index" = true
    · have hnd2 := dict_pop_nodup kwargs "index" hnd
      have h2sep : dict_contains (dict_pop kwargs "index") "sep" = false := by
        rw [dict_contains_pop_ne _ _ _ (by decide)]
        exact hs'
      have h2idx : dict_contains (dict_pop kwargs "index") "index" = false :=
        dict_contains_pop_self kwargs "index"
      have hgets : ∀ k, k ≠ "sep" → k ≠ "index" →
          dict_get (dict_pop kwargs "index") k = dict_get kwargs k := by
        intro k _ h2
        rw [dict_get_pop_ne _ _ _ (Ne.symm h2)]
      obtain ⟨o1, o2, o3⟩ :=
        update_opts_props kwargs [] _ hnd2 rfl rfl h2sep h2idx hgets
      refine ⟨_, write_csv_polars_eq_ft r t path kwargs hs' hi, ?_, o1, o2, o3⟩
      intro hc _
      exact absurd hc hs
    · have hi' : dict_contains kwargs "index" = false := by simpa using hi
      obtain ⟨o1, o2, o3⟩ :=
        update_opts_props kwargs [] kwargs hnd rfl rfl hs' hi' (fun _ _ _ => rfl)
      refine ⟨_, write_csv_polars_eq_ff r t path kwargs hs' hi', ?_, o1, o2, o3⟩
      intro hc _
      exact absurd hc hs

theorem write_csv_polars_option_translation_witness :
    ∃ opts, compatible_write_csv (Value.polars 0 (Table.mk [])) "out.csv"
        [("sep", PyVal.str ";"), ("index", PyVal.bool false)] =
        Except.ok (WriteCall.plWrite "out.csv" opts) ∧
      (dict_contains [("sep", PyVal.str ";"), ("index", PyVal.bool false)] "sep" = true →
        dict_contains [("sep", PyVal.str ";"), ("index", PyVal.bool false)] "separator" = false →
        dict_get opts "separator" =
          dict_get [("sep", PyVal.str ";"), ("index", PyVal.bool false)] "sep") ∧
      dict_contains opts "sep" = false ∧
      dict_contains opts "index" = false ∧
      (∀ k, dict_contains [("sep", PyVal.str ";"), ("index", PyVal.bool false)] k = true →
        k ≠ "sep" → k ≠ "index" →
        dict_get opts k =
          dict_get [("sep", PyVal.str ";"), ("index", PyVal.bool false)] k) :=
  write_csv_polars_option_translation 0 (Table.mk []) "out.csv"
    [("sep", PyVal.str ";"), ("index", PyVal.bool false)] (by decide)

/-- C1 as literally stated is false when the caller supplies both `sep`
and `separator`: the polars writer receives the caller's explicit
`separator` value, not the renamed `sep` value. -/
theorem write_csv_sep_rename_counterexample :
    ∃ opts, compatible_write_csv (Value.polars 0 (Table.mk [])) "out.csv"
        [("sep", PyVal.str ";"), ("separator", PyVal.str ",")] =
        Except.ok (WriteCall.plWrite "out.csv" opts) ∧
      dict_contains [("sep", PyVal.str ";"), ("separator", PyVal.str ",")] "sep" = true ∧
      dict_get opts "separator" ≠
        dict_get [("sep", PyVal.str ";"), ("separator", PyVal.str ",")] "sep" :=
  ⟨[("separator", PyVal.str ",")], rfl, rfl, by decide⟩

/-- C9: when the caller's options for a polars write contain both `sep`
and `separator`, the `separator` entry set from `sep` is written first and
the caller's `separator` value is applied afterwards by `update`, so the
writer receives the caller's `separator` value. -/
theorem write_csv_separator_last_write_wins (r : Nat) (t : Table) (path : String)
    (kwargs : PyDict) (hnd : (kwargs.map Prod.fst).Nodup)
    (hs : dict_contains kwargs "sep" = true)
    (hsep : dict_contains kwargs "separator" = true) :
    ∃ opts, compatible_write_csv (Value.polars r t) path kwargs =
        Except.ok (WriteCall.plWrite path opts) ∧
      dict_get opts "separator" = dict_get kwargs "separator" := by
  obtain ⟨w, hw⟩ := (dict_contains_iff_get kwargs "separator").mp hsep
  have hnd1 := dict_pop_nodup kwargs "sep" hnd
  have h1 : dict_get (dict_pop kwargs "sep") "separator" = some w := by
    rw [dict_get_pop_ne _ _ _ (by decide), hw]
  by_cases hi : dict_contains (dict_pop kwargs "sep") "index" = true
  · refine ⟨_, write_csv_polars_eq_tt r t path kwargs hs hi, ?_⟩
    have h2 : dict_get (dict_pop (dict_pop kwargs "sep") "index") "separator" = some w := by
      rw [dict_get_pop_ne _ _ _ (by decide), h1]
    rw [dict_get_update_of_mem _ _ _ _ (dict_pop_nodup _ "index" hnd1) h2, hw]
  · have hi' : dict_contains (dict_pop kwargs "sep") "index" = false := by simpa using hi
    refine ⟨_, write_csv_polars_eq_tf r t path kwargs hs hi', ?_⟩
    rw [dict_get_update_of_mem _ _ _ _ hnd1 h1, hw]

theorem write_csv_separator_last_write_wins_witness :
    ∃ opts, compatible_write_csv (Value.polars 0 (Table.mk [])) "out.csv"
        [("sep", PyVal.str ";"), ("separator", PyVal.str ",")] =
        Except.ok (WriteCall.plWrite "out.csv" opts) ∧
      dict_get opts "separator" =
        dict_get [("sep", PyVal.str ";"), ("separator", PyVal.str ",")] "separator" :=
  write_csv_separator_last_write_wins 0 (Table.mk []) "out.csv"
    [("sep", PyVal.str ";"), ("separator", PyVal.str ",")] (by decide) (by decide) (by decide)
